import Mathlib

/-!
Verification of the `clipping` repository's natural-language specification
against its source. The Python modules `clipping/core/operation.py` and
`clipping/core/bounding_box.py` are embedded shallowly: numeric scalars
become `Int` (exact, a sub-domain of the rationals over which the library
operates), bounding boxes become 4-tuples of named fields, events become
records stored in an arena (a list indexed by natural-number handles, the
design the spec itself recommends for the twin-linked event graph), and
the mutating sweep steps become explicit state-passing functions.
External collaborators (geometry oracle, ordered-set comparator) are
injected as parameters, mirroring the source's dependency injection.
-/

namespace Clipping

/-- A planar point: ordered pair of exact numeric scalars. -/
abbrev Point : Type := Int × Int

/-- A segment: pair of endpoints. -/
abbrev Segment : Type := Point × Point

/-- Bounding box `(x_min, x_max, y_min, y_max)`, from
`clipping/core/bounding_box.py`. -/
structure BoundingBox where
  x_min : Int
  x_max : Int
  y_min : Int
  y_max : Int
deriving DecidableEq, Repr

/-- A bounding box is well-formed when each axis interval is nonempty. -/
def BoundingBox.valid (b : BoundingBox) : Prop :=
  b.x_min ≤ b.x_max ∧ b.y_min ≤ b.y_max

instance (b : BoundingBox) : Decidable b.valid := by
  unfold BoundingBox.valid; infer_instance

/-- `bounding_box.disjoint_with`: some axis interval is strictly disjoint. -/
def disjoint_with (left right : BoundingBox) : Bool :=
  left.x_min > right.x_max || left.x_max < right.x_min
    || left.y_min > right.y_max || left.y_max < right.y_min

/-- `bounding_box.intersects_with`: both closed axis intervals overlap. -/
def intersects_with (left right : BoundingBox) : Bool :=
  right.x_min ≤ left.x_max && left.x_min ≤ right.x_max
    && right.y_min ≤ left.y_max && left.y_min ≤ right.y_max

/-- `bounding_box.touches_with`: the boxes share only a boundary line
segment or a single point. -/
def touches_with (left right : BoundingBox) : Bool :=
  (left.x_min == right.x_max || left.x_max == right.x_min)
      && (left.y_min ≤ right.y_max && right.y_min ≤ left.y_max)
    || (left.x_min ≤ right.x_max && right.x_min ≤ left.x_max)
      && (left.y_min == right.y_max || right.y_min == left.y_max)

/-- `bounding_box.overlaps_with`: intersects and does not merely touch. -/
def overlaps_with (left right : BoundingBox) : Bool :=
  intersects_with left right && !touches_with left right

/-- A contour: ordered sequence of points, implicitly closed. -/
abbrev Contour : Type := List Point

/-- A polygon: border contour paired with hole contours. -/
abbrev Polygon : Type := Contour × List Contour

/-- A multipolygon: ordered sequence of polygons. -/
abbrev Multipolygon : Type := List Polygon

/-- A mix: triple of multipoint, multisegment and multipolygon, the output
type of complete intersection. -/
abbrev Mix : Type := List Point × List Segment × Multipolygon

/-- The operation selected by the facade `compute` dispatcher, one per
`Operation` subclass in `clipping/core/operation.py`. -/
inductive OpKind where
  | difference
  | intersection
  | completeIntersection
  | symmetricDifference
  | union
deriving DecidableEq, Repr

/-- A value returned by the facade: a multipolygon, or a mix for
`CompleteIntersection`. -/
inductive ComputeResult where
  | poly (value : Multipolygon)
  | mix (value : Mix)

/-- What the facade `compute` does with its input: return a degenerate-case
result without sweeping, or hand the (possibly filtered) operands to the
sweep engine. -/
inductive ComputeOutcome where
  | shortcut (result : ComputeResult)
  | sweep (operands : List Multipolygon)

/-- The empty result of an operation: an empty mix for
`CompleteIntersection`, an empty multipolygon otherwise. -/
def empty_result (op : OpKind) : ComputeResult :=
  match op with
  | .completeIntersection => .mix ([], [], [])
  | .difference => .poly []
  | .intersection => .poly []
  | .symmetricDifference => .poly []
  | .union => .poly []

/-- `bounding_box.from_points`: running min/max over a point sequence.
The source raises on an empty iterable; the `[]` case here is junk and is
never reached by `compute`, which only builds boxes of nonempty borders. -/
def from_points : List Point → BoundingBox
  | [] => ⟨0, 0, 0, 0⟩
  | p :: ps =>
    ps.foldl
      (fun bb q =>
        ⟨min bb.x_min q.1, max bb.x_max q.1, min bb.y_min q.2,
          max bb.y_max q.2⟩)
      ⟨p.1, p.1, p.2, p.2⟩

/-- Modelled from the spec: `utils.multipolygon_to_bounding_box` (module
`clipping/core/utils.py` is not in the sources); per §4.1 the box is the
union over the multipolygon's border vertices, exactly
`bounding_box.from_multipolygon` which is in the sources. -/
def multipolygon_to_bounding_box (multipolygon : Multipolygon) :
    BoundingBox :=
  from_points (multipolygon.map (·.1)).flatten

/-- Modelled from the spec: `utils.are_bounding_boxes_disjoint` (module
`clipping/core/utils.py` is not in the sources); per §4.1 and §4.7 it is
the bounding-box disjointness predicate `disjoint_with`. -/
def are_bounding_boxes_disjoint (left right : BoundingBox) : Bool :=
  disjoint_with left right

/-- `all(starmap(are_bounding_boxes_disjoint, combinations(boxes, 2)))`:
every unordered pair of boxes is disjoint. -/
def pairwise_disjoint_boxes : List BoundingBox → Bool
  | [] => true
  | box :: rest =>
    rest.all (are_bounding_boxes_disjoint box) && pairwise_disjoint_boxes rest

/-- Modelled from the spec: `utils.to_first_boundary_vertex` (module
`clipping/core/utils.py` is not in the sources); per §4.7 the sort key is
the first vertex of the polygon's border. -/
def to_first_boundary_vertex (polygon : Polygon) : Point :=
  polygon.1.headD (0, 0)

/-- Lexicographic comparison of points, the order Python uses on
coordinate tuples. -/
def point_le (p q : Point) : Bool :=
  p.1 < q.1 || (p.1 == q.1 && p.2 ≤ q.2)

/-- The order on polygons induced by the `to_first_boundary_vertex` sort
key. -/
def polygon_key_le (p q : Polygon) : Prop :=
  point_le (to_first_boundary_vertex p) (to_first_boundary_vertex q) = true

instance : DecidableRel polygon_key_le := fun p q =>
  instDecidableEqBool (point_le (to_first_boundary_vertex p)
    (to_first_boundary_vertex q)) true

/-- `sorted(..., key=to_first_boundary_vertex)`: stable sort of polygons
by first boundary vertex (stable sorts under a fixed total preorder agree,
so insertion sort models Python's stable `sorted`). -/
def sorted_polygons (polygons : Multipolygon) : Multipolygon :=
  List.insertionSort polygon_key_le polygons

/-- The part of the facade `compute` (operation.py lines 313-333) reached
after empty-operand handling: single-operand return, disjoint-bounding-box
shortcut, otherwise invoke the sweep.  With exact integer coordinates the
`accurate` rational coercion branch is the identity (the coordinate domain
is already rational), so the operands reach the sweep unchanged. -/
def compute_tail (op : OpKind) (operands : List Multipolygon)
    (accurate : Bool) : ComputeOutcome :=
  if operands.length = 1 then
    .shortcut (match op with
      | .completeIntersection => .mix ([], [], operands.headD [])
      | .difference => .poly (operands.headD [])
      | .intersection => .poly (operands.headD [])
      | .symmetricDifference => .poly (operands.headD [])
      | .union => .poly (operands.headD []))
  else if pairwise_disjoint_boxes (operands.map multipolygon_to_bounding_box)
      then
    .shortcut (match op with
      | .difference => .poly (operands.headD [])
      | .union => .poly (sorted_polygons operands.flatten)
      | .symmetricDifference => .poly (sorted_polygons operands.flatten)
      | .intersection => .poly []
      | .completeIntersection => .mix ([], [], []))
  else .sweep operands

/-- The facade `compute` of `clipping/core/operation.py` (lines 299-333),
up to the point where the sweep engine would take over (`.sweep`). -/
def compute (op : OpKind) (operands : List Multipolygon)
    (accurate : Bool) : ComputeOutcome :=
  if operands.all (·.isEmpty) then .shortcut (empty_result op)
  else if operands.any (·.isEmpty) then
    match op with
    | .difference => .shortcut (.poly (operands.headD []))
    | .union =>
      compute_tail op (operands.filter (fun mp => !mp.isEmpty)) accurate
    | .symmetricDifference =>
      compute_tail op (operands.filter (fun mp => !mp.isEmpty)) accurate
    | .intersection => .shortcut (.poly [])
    | .completeIntersection => .shortcut (.mix ([], [], []))
  else compute_tail op operands accurate

/-- `EdgeType` from `clipping/core/enums.py` (module not in the sources);
modelled from the spec §3: `NORMAL`, `NON_CONTRIBUTING`, `SAME_TRANSITION`,
`DIFFERENT_TRANSITION`, initialized `NORMAL`. -/
inductive EdgeType where
  | NORMAL
  | NON_CONTRIBUTING
  | SAME_TRANSITION
  | DIFFERENT_TRANSITION
deriving DecidableEq, Repr

/-- The `Event` record of `clipping/core/event.py` (module not in the
sources); fields modelled from the spec §3.  Events live in an arena (the
representation the spec's design notes recommend): `complement` and
`below_in_result_event` are indices into the arena, `none` standing for
Python's `None`.  Assembly-time fields (`position`, `contour_id`,
`result_in_out`) play no part in the claims and are omitted. -/
structure Event where
  is_right_endpoint : Bool
  start : Point
  complement : Option Nat
  operand_id : Nat
  edge_type : EdgeType
  in_out : Bool
  other_in_out : Bool
  in_result : Bool
  below_in_result_event : Option Nat
deriving DecidableEq, Repr

instance : Inhabited Event :=
  ⟨⟨false, (0, 0), none, 0, .NORMAL, false, false, false, none⟩⟩

/-- Arena lookup; out-of-range access yields the default event and is
never reached under the validity hypotheses of the theorems. -/
def getEvent (events : List Event) (i : Nat) : Event :=
  events.getD i default

/-- The index of an event's twin; events produced by `register_segment`
and `divide_segment` always carry a twin, so the `none` fallback (the
event itself) is junk that validity hypotheses rule out. -/
def comp (events : List Event) (i : Nat) : Nat :=
  ((getEvent events i).complement).getD i

/-- `Event.end`: the twin's start point. -/
def event_end (events : List Event) (i : Nat) : Point :=
  (getEvent events (comp events i)).start

/-- `Event.segment`: the pair of the event's endpoints. -/
def event_segment (events : List Event) (i : Nat) : Segment :=
  ((getEvent events i).start, event_end events i)

/-- `Event.is_vertical`: per the spec's design notes,
`start.x == end.x`. -/
def is_vertical (events : List Event) (i : Nat) : Bool :=
  (getEvent events i).start.1 == (event_end events i).1

/-- The sweep-engine state: the event arena plus the queue of pushed
event handles (`EventsQueue` contents; for the claims only membership
and insertion order of pushes matter, so it is kept as a list). -/
structure OpState where
  events : List Event
  queue : List Nat
deriving Repr, Inhabited

/-- The per-operation `in_result` predicates of
`clipping/core/operation.py` (`Union`, `Intersection`, `Difference`,
`SymmetricDifference`; `CompleteIntersection` inherits Intersection's). -/
def in_result (op : OpKind) (event : Event) : Bool :=
  match op with
  | .difference =>
    (event.edge_type == .NORMAL
        && ((event.operand_id == 0) == event.other_in_out))
      || event.edge_type == .DIFFERENT_TRANSITION
  | .intersection =>
    (event.edge_type == .NORMAL && !event.other_in_out)
      || event.edge_type == .SAME_TRANSITION
  | .completeIntersection =>
    (event.edge_type == .NORMAL && !event.other_in_out)
      || event.edge_type == .SAME_TRANSITION
  | .symmetricDifference => event.edge_type == .NORMAL
  | .union =>
    (event.edge_type == .NORMAL && event.other_in_out)
      || event.edge_type == .SAME_TRANSITION

/-- C1: each operation's `in_result` predicate coincides with the spec's
table (§4.5). -/
theorem in_result_matches_spec_table (e : Event) :
    (in_result .union e = true ↔
      (e.edge_type = .NORMAL ∧ e.other_in_out = true)
        ∨ e.edge_type = .SAME_TRANSITION) ∧
    (in_result .intersection e = true ↔
      (e.edge_type = .NORMAL ∧ ¬ e.other_in_out = true)
        ∨ e.edge_type = .SAME_TRANSITION) ∧
    (in_result .difference e = true ↔
      (e.edge_type = .NORMAL ∧ ((e.operand_id = 0) ↔ e.other_in_out = true))
        ∨ e.edge_type = .DIFFERENT_TRANSITION) ∧
    (in_result .symmetricDifference e = true ↔ e.edge_type = .NORMAL) := by
  obtain ⟨r, st, cm, oid, et, io, oio, ir, bir⟩ := e
  cases et <;> cases oio <;> by_cases h0 : oid = 0 <;>
    simp [in_result, h0]

/-- `Operation.compute_fields` (operation.py lines 109-127), translated
to arena form: returns the arena with the event at `eventId` relabelled
from the event at `belowId` (the nearest open edge strictly below, `none`
when absent). -/
def compute_fields (op : OpKind) (events : List Event) (eventId : Nat)
    (belowId : Option Nat) : List Event :=
  let e := getEvent events eventId
  match belowId with
  | none =>
    let e1 := { e with in_out := false, other_in_out := true }
    events.set eventId { e1 with in_result := in_result op e1 }
  | some b =>
    let be := getEvent events b
    let e1 :=
      if e.operand_id == be.operand_id then
        { e with in_out := !be.in_out, other_in_out := be.other_in_out }
      else
        { e with in_out := !be.other_in_out, other_in_out := if is_vertical events b then !be.in_out else be.in_out }
    let e2 := { e1 with below_in_result_event :=
        if !(in_result op be) || is_vertical events b
        then be.below_in_result_event else some b }
    events.set eventId { e2 with in_result := in_result op e2 }

/-- The label rules exactly as the spec words them (§4.5 and claim C2):
the three `in_out`/`other_in_out` cases, the `below_in_result_event`
rule (`B` when `B` is in the result — the operation's predicate at `B` —
and not vertical, else `B.below_in_result_event`), and finally
`in_result` from the operation's predicate at the relabelled event. -/
def compute_fields_spec (op : OpKind) (events : List Event) (eventId : Nat)
    (belowId : Option Nat) : Event :=
  let e := getEvent events eventId
  match belowId with
  | none =>
    let labelled : Event := { e with in_out := false, other_in_out := true }
    { labelled with in_result := in_result op labelled }
  | some b =>
    let be := getEvent events b
    let new_in_out : Bool :=
      if e.operand_id == be.operand_id then !be.in_out
      else !be.other_in_out
    let new_other_in_out : Bool :=
      if e.operand_id == be.operand_id then be.other_in_out
      else if is_vertical events b then !be.in_out else be.in_out
    let new_below : Option Nat :=
      if in_result op be && !(is_vertical events b) then some b
      else be.below_in_result_event
    let labelled : Event := { e with in_out := new_in_out, other_in_out := new_other_in_out, below_in_result_event := new_below }
    { labelled with in_result := in_result op labelled }

/-- Arena lookup after `List.set` at the written index. -/
theorem getEvent_set_self (l : List Event) (i : Nat) (v : Event)
    (h : i < l.length) : getEvent (l.set i v) i = v := by
  simp [getEvent, List.getD_eq_getElem?_getD, List.getElem?_set_eq_of_lt, h]

/-- Arena lookup after `List.set` at another index. -/
theorem getEvent_set_ne (l : List Event) (i j : Nat) (v : Event)
    (h : i ≠ j) : getEvent (l.set i v) j = getEvent l j := by
  simp [getEvent, List.getD_eq_getElem?_getD, List.getElem?_set_ne, h]

/-- C2: `compute_fields` relabels the event exactly as the spec's §4.5
rules describe, and leaves every other arena slot unchanged. -/
theorem compute_fields_matches_spec (op : OpKind) (events : List Event)
    (eventId : Nat) (belowId : Option Nat)
    (h : eventId < events.length) :
    getEvent (compute_fields op events eventId belowId) eventId
      = compute_fields_spec op events eventId belowId ∧
    ∀ j, j ≠ eventId →
      getEvent (compute_fields op events eventId belowId) j
        = getEvent events j := by
  constructor
  · match belowId with
    | none => simp [compute_fields, compute_fields_spec, getEvent_set_self,
        h]
    | some b =>
      by_cases hop : (getEvent events eventId).operand_id
          == (getEvent events b).operand_id <;>
        by_cases hv : is_vertical events b <;>
        by_cases hir : in_result op (getEvent events b) = true <;>
        simp [compute_fields, compute_fields_spec, getEvent_set_self, h,
          hop, hv, hir]
  · intro j hj
    match belowId with
    | none => exact getEvent_set_ne _ _ _ _ (fun he => hj he.symm)
    | some b => exact getEvent_set_ne _ _ _ _ (fun he => hj he.symm)

/-- Closed witness for C2 at a concrete two-event arena. -/
theorem compute_fields_matches_spec_witness :
    (getEvent (compute_fields .union
        [⟨false, (0, 0), some 1, 0, .NORMAL, false, false, false, none⟩,
          ⟨false, (0, 1), some 0, 1, .NORMAL, true, false, true, none⟩]
        0 (some 1)) 0
      = compute_fields_spec .union
        [⟨false, (0, 0), some 1, 0, .NORMAL, false, false, false, none⟩,
          ⟨false, (0, 1), some 0, 1, .NORMAL, true, false, true, none⟩]
        0 (some 1)) :=
  (compute_fields_matches_spec .union
    [⟨false, (0, 0), some 1, 0, .NORMAL, false, false, false, none⟩,
      ⟨false, (0, 1), some 0, 1, .NORMAL, true, false, true, none⟩]
    0 (some 1) (by decide)).1

/-- `Operation.divide_segment` (operation.py lines 189-194) in arena
form.  Creates the continuation left event (twin: the old right end) and
the new right event (twin: the original event), rewires the old right
end's twin to the new left event and the original event's twin to the new
right event — in the source's assignment order — and pushes both new
events onto the queue.  The `none` branch is junk: every queued event has
a twin. -/
def divide_segment (s : OpState) (eventId : Nat) (point : Point) :
    OpState :=
  let e := getEvent s.events eventId
  match e.complement with
  | none => s
  | some c =>
    let leftId := s.events.length
    let rightId := s.events.length + 1
    let left_event : Event :=
      ⟨false, point, some c, e.operand_id, .NORMAL, false, false, false,
        none⟩
    let right_event : Event :=
      ⟨true, point, some eventId, e.operand_id, .NORMAL, false, false,
        false, none⟩
    let events1 := s.events ++ [left_event, right_event]
    let events2 :=
      events1.set c { getEvent events1 c with complement := some leftId }
    let events3 :=
      events2.set eventId
        { getEvent events2 eventId with complement := some rightId }
    ⟨events3, s.queue ++ [leftId, rightId]⟩

/-- The twin-pairing invariant of the spec (§3, §5): every event has a
twin distinct from itself whose twin pointer points back. -/
def paired (events : List Event) : Bool :=
  (List.range events.length).all fun i =>
    match (getEvent events i).complement with
    | none => false
    | some c =>
      decide (c < events.length) && ((getEvent events c).complement == some i)
        && decide (c ≠ i)

/-- Arena lookup below the appended region. -/
theorem getEvent_append_left (l m : List Event) (i : Nat)
    (h : i < l.length) : getEvent (l ++ m) i = getEvent l i := by
  simp [getEvent, List.getD_eq_getElem?_getD, List.getElem?_append_left h]

/-- Arena lookup of the first appended event. -/
theorem getEvent_append_pair_fst (l : List Event) (a b : Event) :
    getEvent (l ++ [a, b]) l.length = a := by
  simp [getEvent, List.getD_eq_getElem?_getD,
    List.getElem?_append_right (Nat.le_refl l.length)]

/-- Arena lookup of the second appended event. -/
theorem getEvent_append_pair_snd (l : List Event) (a b : Event) :
    getEvent (l ++ [a, b]) (l.length + 1) = b := by
  simp [getEvent, List.getD_eq_getElem?_getD,
    List.getElem?_append_right (Nat.le_succ_of_le (Nat.le_refl l.length))]

/-- C7: `divide_segment` preserves the twin-pairing invariant: the event's
twin becomes the new right event at `P` (whose twin is the event), the new
left event at `P` and the original end event become twins of each other,
both new events are pushed onto the queue, the four events represent the
two sub-segments sharing `P`, and the arena-wide pairing invariant (no
orphaned event) is preserved. -/
theorem divide_segment_twin_pairing (s : OpState) (eventId c : Nat)
    (p : Point)
    (he : eventId < s.events.length)
    (hcc : (getEvent s.events eventId).complement = some c)
    (hcl : c < s.events.length)
    (hcb : (getEvent s.events c).complement = some eventId)
    (hne : c ≠ eventId)
    (hp : paired s.events = true) :
    (divide_segment s eventId p).events.length = s.events.length + 2 ∧
    (getEvent (divide_segment s eventId p).events eventId).complement
      = some (s.events.length + 1) ∧
    (getEvent (divide_segment s eventId p).events
        (s.events.length + 1)).complement = some eventId ∧
    (getEvent (divide_segment s eventId p).events
        s.events.length).complement = some c ∧
    (getEvent (divide_segment s eventId p).events c).complement
      = some s.events.length ∧
    (getEvent (divide_segment s eventId p).events s.events.length).start
      = p ∧
    (getEvent (divide_segment s eventId p).events
        (s.events.length + 1)).start = p ∧
    (getEvent (divide_segment s eventId p).events
        s.events.length).is_right_endpoint = false ∧
    (getEvent (divide_segment s eventId p).events
        (s.events.length + 1)).is_right_endpoint = true ∧
    (getEvent (divide_segment s eventId p).events eventId).start
      = (getEvent s.events eventId).start ∧
    (getEvent (divide_segment s eventId p).events c).start
      = (getEvent s.events c).start ∧
    event_segment (divide_segment s eventId p).events eventId
      = ((getEvent s.events eventId).start, p) ∧
    event_segment (divide_segment s eventId p).events s.events.length
      = (p, (getEvent s.events c).start) ∧
    (getEvent (divide_segment s eventId p).events
        s.events.length).operand_id
      = (getEvent s.events eventId).operand_id ∧
    (getEvent (divide_segment s eventId p).events
        (s.events.length + 1)).operand_id
      = (getEvent s.events eventId).operand_id ∧
    (divide_segment s eventId p).queue
      = s.queue ++ [s.events.length, s.events.length + 1] ∧
    paired (divide_segment s eventId p).events = true := by
  have hEL : s.events.length + 2
      = (((s.events ++
          [(⟨false, p, some c, (getEvent s.events eventId).operand_id,
            .NORMAL, false, false, false, none⟩ : Event),
          ⟨true, p, some eventId, (getEvent s.events eventId).operand_id,
            .NORMAL, false, false, false, none⟩])).set c
          { getEvent (s.events ++
            [(⟨false, p, some c, (getEvent s.events eventId).operand_id,
              .NORMAL, false, false, false, none⟩ : Event),
            ⟨true, p, some eventId,
              (getEvent s.events eventId).operand_id,
              .NORMAL, false, false, false, none⟩]) c with
            complement := some s.events.length }).length := by
    simp
  have len3 : (divide_segment s eventId p).events.length
      = s.events.length + 2 := by
    simp only [divide_segment, hcc]
    simp
  have at_event : getEvent (divide_segment s eventId p).events eventId
      = { getEvent s.events eventId with
          complement := some (s.events.length + 1) } := by
    simp only [divide_segment, hcc]
    rw [getEvent_set_self _ _ _ (by rw [← hEL]; omega)]
    rw [getEvent_set_ne _ _ _ _ hne, getEvent_append_left _ _ _ he]
  have at_c : getEvent (divide_segment s eventId p).events c
      = { getEvent s.events c with complement := some s.events.length }
      := by
    simp only [divide_segment, hcc]
    rw [getEvent_set_ne _ _ _ _ (Ne.symm hne)]
    rw [getEvent_set_self _ _ _ (by simp; omega)]
    rw [getEvent_append_left _ _ _ hcl]
  have at_left : getEvent (divide_segment s eventId p).events
      s.events.length
      = ⟨false, p, some c, (getEvent s.events eventId).operand_id,
          .NORMAL, false, false, false, none⟩ := by
    simp only [divide_segment, hcc]
    rw [getEvent_set_ne _ _ _ _ (by omega)]
    rw [getEvent_set_ne _ _ _ _ (by omega)]
    exact getEvent_append_pair_fst _ _ _
  have at_right : getEvent (divide_segment s eventId p).events
      (s.events.length + 1)
      = ⟨true, p, some eventId, (getEvent s.events eventId).operand_id,
          .NORMAL, false, false, false, none⟩ := by
    simp only [divide_segment, hcc]
    rw [getEvent_set_ne _ _ _ _ (by omega)]
    rw [getEvent_set_ne _ _ _ _ (by omega)]
    exact getEvent_append_pair_snd _ _ _
  have at_other : ∀ i, i < s.events.length → i ≠ eventId → i ≠ c →
      getEvent (divide_segment s eventId p).events i
        = getEvent s.events i := by
    intro i hi hie hic
    simp only [divide_segment, hcc]
    rw [getEvent_set_ne _ _ _ _ (fun hx => hie hx.symm)]
    rw [getEvent_set_ne _ _ _ _ (fun hx => hic hx.symm)]
    exact getEvent_append_left _ _ _ hi
  have hqueue : (divide_segment s eventId p).queue
      = s.queue ++ [s.events.length, s.events.length + 1] := by
    simp only [divide_segment, hcc]
  refine ⟨len3, by rw [at_event], by rw [at_right], by rw [at_left],
    by rw [at_c], by rw [at_left], by rw [at_right], by rw [at_left],
    by rw [at_right], by rw [at_event], by rw [at_c], ?_, ?_,
    by rw [at_left], by rw [at_right], hqueue, ?_⟩
  · simp only [event_segment, event_end, comp, at_event, at_right,
      Option.getD_some]
  · simp only [event_segment, event_end, comp, at_left, at_c,
      Option.getD_some]
  · unfold paired
    rw [List.all_eq_true]
    intro i hi
    rw [List.mem_range, len3] at hi
    by_cases hie : i = eventId
    · subst hie
      simp only [at_event, at_right, len3, Bool.and_eq_true,
        decide_eq_true_eq, beq_iff_eq]
      exact ⟨⟨by omega, by trivial⟩, by omega⟩
    · by_cases hic : i = c
      · subst hic
        simp only [at_c, at_left, len3, Bool.and_eq_true,
          decide_eq_true_eq, beq_iff_eq]
        exact ⟨⟨by omega, by trivial⟩, by omega⟩
      · by_cases hiL : i = s.events.length
        · subst hiL
          simp only [at_left, at_c, len3, Bool.and_eq_true,
            decide_eq_true_eq, beq_iff_eq]
          exact ⟨⟨by omega, by trivial⟩, by omega⟩
        · by_cases hiR : i = s.events.length + 1
          · subst hiR
            simp only [at_right, at_event, len3, Bool.and_eq_true,
              decide_eq_true_eq, beq_iff_eq]
            exact ⟨⟨by omega, by trivial⟩, by omega⟩
          · have hilt : i < s.events.length := by omega
            rw [at_other i hilt hie hic]
            have hp2 := hp
            unfold paired at hp2
            have hpi := List.all_eq_true.mp hp2 i
              (List.mem_range.mpr hilt)
            revert hpi
            cases hcomp : (getEvent s.events i).complement with
            | none => intro hpi; exact absurd hpi (by simp)
            | some ci =>
              intro hpi
              simp only [Bool.and_eq_true, decide_eq_true_eq,
                beq_iff_eq] at hpi
              obtain ⟨⟨hci_lt, hci_back⟩, hci_ne⟩ := hpi
              have hci_ne_event : ci ≠ eventId := by
                intro hx
                subst hx
                rw [hcc] at hci_back
                exact hic (Option.some.inj hci_back).symm
              have hci_ne_c : ci ≠ c := by
                intro hx
                subst hx
                rw [hcb] at hci_back
                exact hie (Option.some.inj hci_back).symm
              dsimp only
              rw [at_other ci hci_lt hci_ne_event hci_ne_c]
              simp only [hci_back, len3, Bool.and_eq_true,
                decide_eq_true_eq, beq_iff_eq]
              exact ⟨⟨by omega, by trivial⟩, hci_ne⟩

/-- Closed witness for C7: dividing a concrete two-event segment at its
midpoint rewires the twins and preserves the pairing invariant. -/
theorem divide_segment_twin_pairing_witness :
    (getEvent (divide_segment
        ⟨[⟨false, (0, 0), some 1, 0, .NORMAL, false, false, false, none⟩,
          ⟨true, (2, 0), some 0, 0, .NORMAL, false, false, false, none⟩],
          []⟩ 0 (1, 0)).events 0).complement = some 3 ∧
    paired (divide_segment
        ⟨[⟨false, (0, 0), some 1, 0, .NORMAL, false, false, false, none⟩,
          ⟨true, (2, 0), some 0, 0, .NORMAL, false, false, false, none⟩],
          []⟩ 0 (1, 0)).events = true := by
  have h := divide_segment_twin_pairing
    ⟨[⟨false, (0, 0), some 1, 0, .NORMAL, false, false, false, none⟩,
      ⟨true, (2, 0), some 0, 0, .NORMAL, false, false, false, none⟩], []⟩
    0 1 (1, 0) (by decide) (by decide) (by decide) (by decide) (by decide)
    (by decide)
  exact ⟨h.2.1, h.2.2.2.2.2.2.2.2.2.2.2.2.2.2.2.2⟩

/-- `SegmentsRelationship` of the geometry oracle (external collaborator
`robust.linear`). -/
inductive SegmentsRelationship where
  | NONE
  | TOUCH
  | CROSS
  | OVERLAP
deriving DecidableEq, Repr

/-- `Orientation` of the geometry oracle (external collaborator
`robust.angular`). -/
inductive Orientation where
  | COLLINEAR
  | CLOCKWISE
  | COUNTERCLOCKWISE
deriving DecidableEq, Repr

/-- The injected external collaborators (spec §1, §6): the exact geometry
oracle and the caller-supplied sweep-line comparator of the ordered-set
container. -/
structure Oracle where
  segments_relationship : Segment → Segment → SegmentsRelationship
  segments_intersection : Segment → Segment → Point
  orientation : Point → Point → Point → Orientation
  sweep_line_lt : List Event → Nat → Nat → Bool

/-- Modelled from the spec: the `EventsQueueKey` order of
`clipping/core/events_queue.py` (module not in the sources), per §4.2:
x ascending, then y ascending, then left endpoints before right
endpoints, then the event whose other endpoint lies below first (by the
orientation oracle), ties by operand id.  `detect_intersection` only
consults it on events with distinct points, where the first two rules
decide. -/
def events_queue_key_lt (ora : Oracle) (events : List Event) (i j : Nat) :
    Bool :=
  let e := getEvent events i
  let o := getEvent events j
  if e.start.1 != o.start.1 then decide (e.start.1 < o.start.1)
  else if e.start.2 != o.start.2 then decide (e.start.2 < o.start.2)
  else if e.is_right_endpoint != o.is_right_endpoint then
    !e.is_right_endpoint
  else
    match ora.orientation e.start (event_end events i)
        (event_end events j) with
    | .COUNTERCLOCKWISE => true
    | .CLOCKWISE => false
    | .COLLINEAR => decide (e.operand_id < o.operand_id)

/-- `Operation.detect_intersection` (operation.py lines 133-187) in arena
form over the injected oracle.  Returns the updated state and the
boolean the source returns (`True` only from the equal-starts overlap
branch); raising becomes `Except.error`.  The source's
`start_min`/`start_max` (resp. `end_min`/`end_max`) are `None` exactly
when `starts_equal` (resp. `ends_equal`); here the pairs are computed
unconditionally and the equality flags guard every use, preserving the
source's control flow. -/
def detect_intersection (ora : Oracle) (s : OpState)
    (belowId eventId : Nat) : Except String (OpState × Bool) :=
  let below_segment := event_segment s.events belowId
  let segment := event_segment s.events eventId
  let relationship := ora.segments_relationship below_segment segment
  if relationship == .OVERLAP then
    if (getEvent s.events belowId).operand_id
        == (getEvent s.events eventId).operand_id then
      .error "Edges of the same multipolygon should not overlap."
    else
      let starts_equal :=
        (getEvent s.events belowId).start == (getEvent s.events eventId).start
      let sm :=
        if events_queue_key_lt ora s.events eventId belowId
        then (eventId, belowId) else (belowId, eventId)
      let ends_equal :=
        event_end s.events eventId == event_end s.events belowId
      let em :=
        if events_queue_key_lt ora s.events (comp s.events eventId)
            (comp s.events belowId)
        then (comp s.events eventId, comp s.events belowId)
        else (comp s.events belowId, comp s.events eventId)
      if starts_equal then
        -- both line segments are equal or share the left endpoint
        let events1 := s.events.set belowId
          { getEvent s.events belowId with edge_type := .NON_CONTRIBUTING }
        let new_type :=
          if (getEvent s.events eventId).in_out
              == (getEvent s.events belowId).in_out
          then EdgeType.SAME_TRANSITION else EdgeType.DIFFERENT_TRANSITION
        let events2 := events1.set eventId
          { getEvent events1 eventId with edge_type := new_type }
        let s1 : OpState := ⟨events2, s.queue⟩
        if !ends_equal then
          .ok (divide_segment s1 (comp s.events em.2)
            (getEvent s.events em.1).start, true)
        else .ok (s1, true)
      else if ends_equal then
        -- the line segments share the right endpoint
        .ok (divide_segment s sm.1 (getEvent s.events sm.2).start, false)
      else if sm.1 == comp s.events em.2 then
        -- one line segment includes the other one
        let s1 := divide_segment s sm.1 (getEvent s.events em.1).start
        .ok (divide_segment s1 sm.1 (getEvent s1.events sm.2).start, false)
      else
        -- no line segment includes the other one
        let s1 := divide_segment s sm.2 (getEvent s.events em.1).start
        .ok (divide_segment s1 sm.1 (getEvent s1.events sm.2).start, false)
  else if relationship != .NONE
      && (getEvent s.events eventId).start != (getEvent s.events belowId).start
      && (event_end s.events eventId != event_end s.events belowId) then
    -- segments do not intersect at endpoints
    let point := ora.segments_intersection below_segment segment
    let s1 :=
      if point != (getEvent s.events belowId).start
          && point != event_end s.events belowId
      then divide_segment s belowId point else s
    let s2 :=
      if point != (getEvent s.events eventId).start
          && point != event_end s.events eventId
      then divide_segment s1 eventId point else s1
    .ok (s2, false)
  else .ok (s, false)

/-- Whether an `Except` result is an error. -/
def is_error {α : Type} : Except String α → Bool
  | .error _ => true
  | .ok _ => false

/-- The boolean a successful `detect_intersection` returned. -/
def ret_flag : Except String (OpState × Bool) → Option Bool
  | .ok (_, r) => some r
  | .error _ => none

/-- The seven event fields that neither edge-type marking nor segment
splitting may touch (everything except `edge_type` and `complement`). -/
def core_fields (e : Event) :
    Bool × Point × Nat × Bool × Bool × Bool × Option Nat :=
  (e.is_right_endpoint, e.start, e.operand_id, e.in_out, e.other_in_out,
    e.in_result, e.below_in_result_event)

/-- `s'` extends `s` by appended events and queue pushes only: no
pre-existing event's core fields change. -/
def state_extends (s s' : OpState) : Prop :=
  s.events.length ≤ s'.events.length ∧
  (∃ q, s'.queue = s.queue ++ q) ∧
  ∀ i, i < s.events.length →
    core_fields (getEvent s'.events i) = core_fields (getEvent s.events i)

/-- `state_extends` is reflexive. -/
theorem state_extends_refl (s : OpState) : state_extends s s :=
  ⟨Nat.le_refl _, ⟨[], by simp⟩, fun _ _ => rfl⟩

/-- `state_extends` is transitive. -/
theorem state_extends_trans {a b c : OpState} (hab : state_extends a b)
    (hbc : state_extends b c) : state_extends a c := by
  obtain ⟨l1, ⟨q1, hq1⟩, f1⟩ := hab
  obtain ⟨l2, ⟨q2, hq2⟩, f2⟩ := hbc
  exact ⟨Nat.le_trans l1 l2, ⟨q1 ++ q2, by rw [hq2, hq1, List.append_assoc]⟩,
    fun i hi => (f2 i (Nat.lt_of_lt_of_le hi l1)).trans (f1 i hi)⟩

/-- Writing a record that shares the core fields of the overwritten slot
preserves every slot's core fields. -/
theorem core_fields_set (l : List Event) (i j : Nat) (v : Event)
    (hv : core_fields v = core_fields (getEvent l i)) :
    core_fields (getEvent (l.set i v) j) = core_fields (getEvent l j) := by
  by_cases h : i = j
  · subst h
    by_cases hl : i < l.length
    · rw [getEvent_set_self _ _ _ hl, hv]
    · rw [List.set_eq_of_length_le (Nat.le_of_not_lt hl)]
  · rw [getEvent_set_ne _ _ _ _ h]

/-- `divide_segment` only appends events, pushes onto the queue and
rewires `complement` fields: core fields of existing events persist. -/
theorem divide_segment_extends (s : OpState) (eventId : Nat) (p : Point) :
    state_extends s (divide_segment s eventId p) := by
  cases hcc : (getEvent s.events eventId).complement with
  | none =>
    simp only [divide_segment, hcc]
    exact state_extends_refl s
  | some c =>
    simp only [divide_segment, hcc]
    refine ⟨by simp, ⟨[s.events.length, s.events.length + 1], rfl⟩, ?_⟩
    intro i hi
    have happ : ∀ (a b : Event),
        core_fields (getEvent (s.events ++ [a, b]) i)
          = core_fields (getEvent s.events i) := fun a b => by
      rw [getEvent_append_left _ _ _ hi]
    exact (core_fields_set _ _ _ _ (by rfl)).trans
      ((core_fields_set _ _ _ _ (by rfl)).trans (happ _ _))

/-- Marking the two events' edge types (the equal-starts overlap branch)
changes no core field and neither arena length nor queue. -/
theorem mark_edge_types_extends (s : OpState) (belowId eventId : Nat)
    (t : EdgeType) :
    state_extends s
      ⟨(s.events.set belowId
          { getEvent s.events belowId with
            edge_type := .NON_CONTRIBUTING }).set eventId
        { getEvent (s.events.set belowId
            { getEvent s.events belowId with
              edge_type := .NON_CONTRIBUTING }) eventId with
          edge_type := t },
        s.queue⟩ := by
  refine ⟨by simp, ⟨[], by simp⟩, ?_⟩
  intro i hi
  exact (core_fields_set _ _ _ _ (by rfl)).trans
    (core_fields_set _ _ _ _ (by rfl))

/-- A conditional split extends the state either way. -/
theorem divide_segment_extends_ite (s : OpState) (c : Bool) (i : Nat)
    (p : Point) :
    state_extends s (if c = true then divide_segment s i p else s) := by
  split
  · exact divide_segment_extends s i p
  · exact state_extends_refl s

set_option maxHeartbeats 1600000 in
/-- C3: `detect_intersection` raises exactly when the oracle classifies
the two segments as OVERLAP and the events carry the same operand id; in
every non-raising case the state is only extended by queue pushes and
appended split events, and no existing event's core fields (everything
but `edge_type` and `complement`) change — i.e. the state is modified
only by edge-type marking and segment splitting. -/
theorem detect_intersection_error_contract (ora : Oracle) (s : OpState)
    (belowId eventId : Nat) :
    (is_error (detect_intersection ora s belowId eventId) = true ↔
      ora.segments_relationship (event_segment s.events belowId)
          (event_segment s.events eventId) = .OVERLAP ∧
      (getEvent s.events belowId).operand_id
        = (getEvent s.events eventId).operand_id) ∧
    (∀ s' r, detect_intersection ora s belowId eventId = .ok (s', r) →
      state_extends s s') := by
  have herr : is_error (detect_intersection ora s belowId eventId)
      = ((ora.segments_relationship (event_segment s.events belowId)
            (event_segment s.events eventId) == .OVERLAP)
          && ((getEvent s.events belowId).operand_id
            == (getEvent s.events eventId).operand_id)) := by
    by_cases h1 : (ora.segments_relationship
        (event_segment s.events belowId)
        (event_segment s.events eventId) == SegmentsRelationship.OVERLAP)
        = true
    · by_cases h2 : ((getEvent s.events belowId).operand_id
          == (getEvent s.events eventId).operand_id) = true
      · simp [detect_intersection, h1, h2, is_error]
      · rw [Bool.not_eq_true] at h2
        simp [detect_intersection, h1, h2]
        repeat' first
        | rfl
        | split
    · rw [Bool.not_eq_true] at h1
      simp [detect_intersection, h1]
      repeat' first
      | rfl
      | split
  constructor
  · rw [herr]
    simp [Bool.and_eq_true, beq_iff_eq]
  · intro s' r heq
    by_cases h1 : (ora.segments_relationship
        (event_segment s.events belowId)
        (event_segment s.events eventId) == SegmentsRelationship.OVERLAP)
        = true
    · by_cases h2 : ((getEvent s.events belowId).operand_id
          == (getEvent s.events eventId).operand_id) = true
      · have hbad : is_error (detect_intersection ora s belowId eventId)
            = true := by rw [herr, h1, h2]; rfl
        rw [heq] at hbad
        exact absurd hbad (by simp [is_error])
      · rw [Bool.not_eq_true] at h2
        revert heq
        simp only [detect_intersection, h1, h2]
        simp only [Bool.false_eq_true, if_false, if_true]
        repeat' split
        all_goals
          intro heq
          have hs := congrArg Prod.fst (Except.ok.inj heq)
          dsimp at hs
          subst hs
          first
          | exact state_extends_refl s
          | exact divide_segment_extends _ _ _
          | exact mark_edge_types_extends s belowId eventId _
          | exact state_extends_trans
              (mark_edge_types_extends s belowId eventId _)
              (divide_segment_extends _ _ _)
          | exact state_extends_trans (divide_segment_extends _ _ _)
              (divide_segment_extends _ _ _)
    · rw [Bool.not_eq_true] at h1
      revert heq
      simp only [detect_intersection, h1]
      simp only [Bool.false_eq_true, if_false, if_true]
      repeat' split
      all_goals
        intro heq
        have hs := congrArg Prod.fst (Except.ok.inj heq)
        dsimp at hs
        subst hs
        first
        | exact state_extends_refl s
        | exact divide_segment_extends _ _ _
        | exact state_extends_trans (divide_segment_extends _ _ _)
            (divide_segment_extends _ _ _)

/-- Closed witness for C3: on a trivial oracle (relationship NONE) the
call succeeds and the (empty) state is only extended. -/
theorem detect_intersection_error_contract_witness :
    state_extends ⟨[], []⟩ ⟨[], []⟩ :=
  (detect_intersection_error_contract
    ⟨fun _ _ => .NONE, fun _ _ => (0, 0), fun _ _ _ => .COLLINEAR,
      fun _ _ _ => false⟩
    ⟨[], []⟩ 0 1).2 ⟨[], []⟩ false rfl

set_option maxHeartbeats 1600000 in
/-- C10: `detect_intersection` returns `True` exactly when the oracle
classifies the segments as OVERLAP and the two events share their start
point (necessarily with distinct operand ids, otherwise it raises —
`ret_flag` is `none`); in every other non-raising case it returns
`False`. -/
theorem detect_intersection_true_iff (ora : Oracle) (s : OpState)
    (belowId eventId : Nat) :
    ret_flag (detect_intersection ora s belowId eventId)
      = if (ora.segments_relationship (event_segment s.events belowId)
              (event_segment s.events eventId) == .OVERLAP)
            && ((getEvent s.events belowId).operand_id
              == (getEvent s.events eventId).operand_id) then none
        else some ((ora.segments_relationship
              (event_segment s.events belowId)
              (event_segment s.events eventId) == .OVERLAP)
            && ((getEvent s.events belowId).start
              == (getEvent s.events eventId).start)) := by
  by_cases h1 : (ora.segments_relationship
      (event_segment s.events belowId)
      (event_segment s.events eventId) == SegmentsRelationship.OVERLAP)
      = true
  · by_cases h2 : ((getEvent s.events belowId).operand_id
        == (getEvent s.events eventId).operand_id) = true
    · simp [detect_intersection, h1, h2, ret_flag]
    · rw [Bool.not_eq_true] at h2
      by_cases h3 : ((getEvent s.events belowId).start
          == (getEvent s.events eventId).start) = true
      · simp [detect_intersection, h1, h2, h3]
        repeat' first
        | rfl
        | split
      · rw [Bool.not_eq_true] at h3
        simp [detect_intersection, h1, h2, h3]
        repeat' first
        | rfl
        | split
  · rw [Bool.not_eq_true] at h1
    simp [detect_intersection, h1]
    repeat' first
    | rfl
    | split

/-- Modelled from the spec: the sweep line (§2, §4.3, §6) is an external
balanced ordered set of open edges under the caller-supplied comparator;
modelled as the ordered list of event handles, bottom to top, with
insertion driven by the injected comparator. -/
def sweep_insert (lt : List Event → Nat → Nat → Bool)
    (events : List Event) : List Nat → Nat → List Nat
  | [], i => [i]
  | j :: rest, i =>
    if lt events i j then i :: j :: rest
    else j :: sweep_insert lt events rest i

/-- The neighbour just above (after) an event in the sweep line. -/
def sweep_above : List Nat → Nat → Option Nat
  | [], _ => none
  | [_], _ => none
  | j :: k :: rest, i =>
    if j == i then some k else sweep_above (k :: rest) i

/-- The neighbour just below (before) an event in the sweep line. -/
def sweep_below (line : List Nat) (i : Nat) : Option Nat :=
  sweep_above line.reverse i

/-- `Operation.process_event` (operation.py lines 80-107) in arena form.
`sweep_line.move_to(start_x)` only advances the comparator's sweep
position, which lives inside the injected comparator here, so it has no
explicit counterpart.  Right events: append the event itself to the
processed list, then locate its twin left event in the sweep line and, if
present, remove it after testing its two former neighbours against each
other.  Left events: skip duplicates, insert, compute labels from the
below neighbour, then run the two intersection tests, recomputing labels
exactly when a test returned true. -/
def process_event (ora : Oracle) (op : OpKind) (s : OpState)
    (sweep_line : List Nat) (processed : List Nat) (eventId : Nat) :
    Except String (OpState × List Nat × List Nat) :=
  if (getEvent s.events eventId).is_right_endpoint then
    let processed1 := processed ++ [eventId]
    let leftId := comp s.events eventId
    if sweep_line.contains leftId then
      let above? := sweep_above sweep_line leftId
      let below? := sweep_below sweep_line leftId
      let sweep1 := sweep_line.erase leftId
      match above?, below? with
      | some a, some b =>
        match detect_intersection ora s b a with
        | .error msg => .error msg
        | .ok (s2, _) => .ok (s2, sweep1, processed1)
      | _, _ => .ok (s, sweep1, processed1)
    else .ok (s, sweep_line, processed1)
  else
    if sweep_line.contains eventId then .ok (s, sweep_line, processed)
    else
      let processed1 := processed ++ [eventId]
      let sweep1 :=
        sweep_insert ora.sweep_line_lt s.events sweep_line eventId
      let above? := sweep_above sweep1 eventId
      let below? := sweep_below sweep1 eventId
      let s1 : OpState :=
        ⟨compute_fields op s.events eventId below?, s.queue⟩
      let step2 : Except String OpState :=
        match above? with
        | none => .ok s1
        | some a =>
          match detect_intersection ora s1 eventId a with
          | .error msg => .error msg
          | .ok (s2, flag) =>
            if flag then
              .ok ⟨compute_fields op
                  (compute_fields op s2.events eventId below?) a
                  (some eventId),
                s2.queue⟩
            else .ok s2
      match step2 with
      | .error msg => .error msg
      | .ok s2 =>
        match below? with
        | none => .ok (s2, sweep1, processed1)
        | some b =>
          match detect_intersection ora s2 b eventId with
          | .error msg => .error msg
          | .ok (s3, flag) =>
            if flag then
              let bb := sweep_below sweep1 b
              .ok (⟨compute_fields op
                    (compute_fields op s3.events b bb) eventId (some b),
                  s3.queue⟩,
                sweep1, processed1)
            else .ok (s3, sweep1, processed1)

/-- C8 counterexample: popping the right event `1` (twin left event `0`)
appends `1` itself — not its twin left event `0` — to the processed
list (operation.py line 85 appends before `event = event.complement`).
The claim, which says the twin left event is appended, predicts `[0]`. -/
theorem process_event_right_append_counterexample :
    process_event
      ⟨fun _ _ => .NONE, fun _ _ => (0, 0), fun _ _ _ => .COLLINEAR,
        fun _ _ _ => false⟩
      .union
      ⟨[⟨false, (0, 0), some 1, 0, .NORMAL, false, false, false, none⟩,
        ⟨true, (2, 0), some 0, 0, .NORMAL, false, false, false, none⟩],
        []⟩
      [] [] 1
      = .ok (⟨[⟨false, (0, 0), some 1, 0, .NORMAL, false, false, false,
          none⟩,
        ⟨true, (2, 0), some 0, 0, .NORMAL, false, false, false, none⟩],
        []⟩, [], [1]) ∧
    comp [⟨false, (0, 0), some 1, 0, .NORMAL, false, false, false, none⟩,
        ⟨true, (2, 0), some 0, 0, .NORMAL, false, false, false, none⟩] 1
      = 0 ∧
    [1] ≠ ([0] : List Nat) := by
  exact ⟨rfl, rfl, by decide⟩

/-- C8 amended: when a right event is popped, the event appended to the
processed list is the right event itself (whose twin left event carries
the labels the assembler reads); then the twin left event is located in
the sweep line and, if present, removed, with an intersection test
between its former below and above neighbours when both exist. -/
theorem process_event_right_behaviour (ora : Oracle) (op : OpKind)
    (s : OpState) (line processed : List Nat) (eventId : Nat)
    (hr : (getEvent s.events eventId).is_right_endpoint = true) :
    ∀ s' line' processed',
      process_event ora op s line processed eventId
        = .ok (s', line', processed') →
      processed' = processed ++ [eventId] ∧
      (line.contains (comp s.events eventId) = false →
        line' = line ∧ s' = s) ∧
      (line.contains (comp s.events eventId) = true →
        line' = line.erase (comp s.events eventId) ∧
        (match sweep_above line (comp s.events eventId),
            sweep_below line (comp s.events eventId) with
         | some a, some b =>
           ∃ r, detect_intersection ora s b a = .ok (s', r)
         | _, _ => s' = s)) := by
  intro s' line' processed'
  by_cases hc : line.contains (comp s.events eventId) = true
  · have hce : List.elem (comp s.events eventId) line = true := hc
    simp only [process_event, hr, hce, eq_self_iff_true, if_true]
    rcases ha : sweep_above line (comp s.events eventId) with _ | a
    · intro heq
      cases heq
      refine ⟨rfl, ?_, fun _ => ⟨rfl, rfl⟩⟩
      intro h0
      first
      | exact h0.elim
      | exact absurd h0 (by decide)
      | exact absurd (h0.symm.trans hc) (by decide)
    · rcases hb : sweep_below line (comp s.events eventId) with _ | b
      · intro heq
        cases heq
        refine ⟨rfl, ?_, fun _ => ⟨rfl, rfl⟩⟩
        intro h0
        first
        | exact h0.elim
        | exact absurd h0 (by decide)
        | exact absurd (h0.symm.trans hc) (by decide)
      · intro heq
        dsimp only at heq
        rcases hd : detect_intersection ora s b a with m | ⟨s2, r⟩
        · rw [hd] at heq
          cases heq
        · rw [hd] at heq
          cases heq
          refine ⟨rfl, ?_, fun _ => ⟨rfl, ⟨r, hd⟩⟩⟩
          intro h0
          first
          | exact h0.elim
          | exact absurd h0 (by decide)
          | exact absurd (h0.symm.trans hc) (by decide)
  · rw [Bool.not_eq_true] at hc
    have hce : List.elem (comp s.events eventId) line = false := hc
    simp only [process_event, hr, hce, eq_self_iff_true, if_true,
      Bool.false_eq_true, if_false]
    intro heq
    cases heq
    refine ⟨rfl, fun _ => ⟨rfl, rfl⟩, ?_⟩
    intro h1
    first
    | exact h1.elim
    | exact absurd h1 (by decide)
    | exact absurd (hc.symm.trans h1) (by decide)

/-- Closed witness for C8 (amended): popping a concrete right event whose
twin is not in the sweep line appends the right event itself and leaves
line and state unchanged. -/
theorem process_event_right_behaviour_witness :
    ([1] : List Nat) = [] ++ [1] ∧ ([] : List Nat) = [] := by
  have h := (process_event_right_behaviour
    ⟨fun _ _ => .NONE, fun _ _ => (0, 0), fun _ _ _ => .COLLINEAR,
      fun _ _ _ => false⟩
    .union
    ⟨[⟨false, (0, 0), some 1, 0, .NORMAL, false, false, false, none⟩,
      ⟨true, (2, 0), some 0, 0, .NORMAL, false, false, false, none⟩], []⟩
    [] [] 1 (by decide)
    ⟨[⟨false, (0, 0), some 1, 0, .NORMAL, false, false, false, none⟩,
      ⟨true, (2, 0), some 0, 0, .NORMAL, false, false, false, none⟩], []⟩
    [] [1] rfl)
  exact ⟨h.1, (h.2.1 rfl).1⟩

/-- The state of a successful `process_event` run; errors yield the empty
state (unused by the claims, which only inspect successful runs). -/
def result_state :
    Except String (OpState × List Nat × List Nat) → OpState
  | .ok (s, _, _) => s
  | .error _ => ⟨[], []⟩

/-- C9 counterexample: inserting the left event `2` (operand 1, segment
(0,0)-(2,0)) above the open edge `0` (operand 0, same segment), the
below-neighbour intersection test detects an overlap with equal start
and end points: no segment is split (the arena keeps its 4 events), yet
labels are recomputed — event 2's `in_result` ends up `true` (its edge
type became SAME_TRANSITION), while the value computed at the insertion
step, which the claim says would be final absent a split, is `false`. -/
theorem process_event_left_recompute_counterexample :
    is_error (process_event
      ⟨fun _ _ => .OVERLAP, fun _ _ => (0, 0), fun _ _ _ => .COLLINEAR,
        fun _ _ _ => false⟩
      .union
      ⟨[⟨false, (0, 0), some 1, 0, .NORMAL, false, true, true, none⟩,
        ⟨true, (2, 0), some 0, 0, .NORMAL, false, false, false, none⟩,
        ⟨false, (0, 0), some 3, 1, .NORMAL, false, false, false, none⟩,
        ⟨true, (2, 0), some 2, 1, .NORMAL, false, false, false, none⟩],
        []⟩
      [0] [0] 2) = false ∧
    (result_state (process_event
      ⟨fun _ _ => .OVERLAP, fun _ _ => (0, 0), fun _ _ _ => .COLLINEAR,
        fun _ _ _ => false⟩
      .union
      ⟨[⟨false, (0, 0), some 1, 0, .NORMAL, false, true, true, none⟩,
        ⟨true, (2, 0), some 0, 0, .NORMAL, false, false, false, none⟩,
        ⟨false, (0, 0), some 3, 1, .NORMAL, false, false, false, none⟩,
        ⟨true, (2, 0), some 2, 1, .NORMAL, false, false, false, none⟩],
        []⟩
      [0] [0] 2)).events.length = 4 ∧
    (getEvent (result_state (process_event
      ⟨fun _ _ => .OVERLAP, fun _ _ => (0, 0), fun _ _ _ => .COLLINEAR,
        fun _ _ _ => false⟩
      .union
      ⟨[⟨false, (0, 0), some 1, 0, .NORMAL, false, true, true, none⟩,
        ⟨true, (2, 0), some 0, 0, .NORMAL, false, false, false, none⟩,
        ⟨false, (0, 0), some 3, 1, .NORMAL, false, false, false, none⟩,
        ⟨true, (2, 0), some 2, 1, .NORMAL, false, false, false, none⟩],
        []⟩
      [0] [0] 2)).events 2).in_result = true ∧
    (getEvent (compute_fields .union
      [⟨false, (0, 0), some 1, 0, .NORMAL, false, true, true, none⟩,
        ⟨true, (2, 0), some 0, 0, .NORMAL, false, false, false, none⟩,
        ⟨false, (0, 0), some 3, 1, .NORMAL, false, false, false, none⟩,
        ⟨true, (2, 0), some 2, 1, .NORMAL, false, false, false, none⟩]
      2 (some 0)) 2).in_result = false := by
  decide

/-- An `if` of two successes commutes with `Except.ok`. -/
theorem ok_ite_comm {α : Type} (flag : Bool) (x y : α) :
    (if flag = true then (Except.ok x : Except String α) else .ok y)
      = .ok (if flag = true then x else y) := by
  cases flag <;> simp

/-- An `if` of two successful triples sharing their tail commutes with
`Except.ok`. -/
theorem ok_ite_comm_triple (flag : Bool) (x y : OpState)
    (t : List Nat × List Nat) :
    (if flag = true
        then (Except.ok (x, t) :
          Except String (OpState × List Nat × List Nat))
        else .ok (y, t))
      = .ok (if flag = true then x else y, t) := by
  cases flag <;> simp

/-- An `if` of two pairs sharing their second component commutes with
pairing. -/
theorem ite_pair_comm {α β : Type} (flag : Bool) (x y : α) (t : β) :
    (if flag = true then (x, t) else (y, t))
      = (if flag = true then x else y, t) := by
  cases flag <;> simp

/-- The left-event handling as the amended claim words it (§4.4 steps
with the corrected trigger): skip duplicates; insert and look up the
neighbours; compute labels from the below neighbour; test against the
above neighbour and, exactly when the test returned true (overlap
sharing the start point), recompute the labels of the event (from below)
and of the above neighbour (from the event); test against the below
neighbour and, exactly when that test returned true, recompute the
labels of the below neighbour (from its own below) and of the event
(from the below neighbour). -/
def process_event_left_spec (ora : Oracle) (op : OpKind) (s : OpState)
    (sweep_line : List Nat) (processed : List Nat) (eventId : Nat) :
    Except String (OpState × List Nat × List Nat) :=
  if sweep_line.contains eventId then .ok (s, sweep_line, processed)
  else
    let processed1 := processed ++ [eventId]
    let line1 := sweep_insert ora.sweep_line_lt s.events sweep_line eventId
    let above? := sweep_above line1 eventId
    let below? := sweep_below line1 eventId
    let s1 : OpState :=
      ⟨compute_fields op s.events eventId below?, s.queue⟩
    let step4 : Except String OpState :=
      match above? with
      | none => .ok s1
      | some a =>
        match detect_intersection ora s1 eventId a with
        | .error msg => .error msg
        | .ok (s2, flag) =>
          .ok (if flag then
              ⟨compute_fields op
                  (compute_fields op s2.events eventId below?) a
                  (some eventId),
                s2.queue⟩
            else s2)
    match step4 with
    | .error msg => .error msg
    | .ok s2 =>
      match below? with
      | none => .ok (s2, line1, processed1)
      | some b =>
        match detect_intersection ora s2 b eventId with
        | .error msg => .error msg
        | .ok (s3, flag) =>
          .ok (if flag then
              ⟨compute_fields op
                  (compute_fields op s3.events b (sweep_below line1 b))
                  eventId (some b),
                s3.queue⟩
            else s3, line1, processed1)

/-- C9 amended: on a left event, `process_event` behaves exactly as the
corrected step list: labels are recomputed exactly when an intersection
test returned true — i.e. detected an overlap with equal start points —
not when it caused a split. -/
theorem process_event_left_matches_amended (ora : Oracle) (op : OpKind)
    (s : OpState) (line processed : List Nat) (eventId : Nat)
    (hl : (getEvent s.events eventId).is_right_endpoint = false) :
    process_event ora op s line processed eventId
      = process_event_left_spec ora op s line processed eventId := by
  simp only [process_event, process_event_left_spec, hl,
    Bool.false_eq_true, if_false, ok_ite_comm, ok_ite_comm_triple,
    ite_pair_comm]

/-- Closed witness for C9 (amended) at a concrete one-event state. -/
theorem process_event_left_matches_amended_witness :
    process_event
      ⟨fun _ _ => .NONE, fun _ _ => (0, 0), fun _ _ _ => .COLLINEAR,
        fun _ _ _ => false⟩
      .union
      ⟨[⟨false, (0, 0), some 1, 0, .NORMAL, false, false, false, none⟩,
        ⟨true, (2, 0), some 0, 0, .NORMAL, false, false, false, none⟩],
        []⟩
      [] [] 0
      = process_event_left_spec
        ⟨fun _ _ => .NONE, fun _ _ => (0, 0), fun _ _ _ => .COLLINEAR,
          fun _ _ _ => false⟩
        .union
        ⟨[⟨false, (0, 0), some 1, 0, .NORMAL, false, false, false, none⟩,
          ⟨true, (2, 0), some 0, 0, .NORMAL, false, false, false, none⟩],
          []⟩
        [] [] 0 :=
  process_event_left_matches_amended _ _ _ _ _ _ (by decide)

/-- C6: for valid bounding boxes, `intersects_with` is reflexive and
symmetric, `disjoint_with` is its negation, and when two boxes intersect
exactly one of `overlaps_with` and `touches_with` holds (and neither
holds when they do not intersect). -/
theorem bounding_box_predicate_algebra (a b : BoundingBox)
    (ha : a.valid) (hb : b.valid) :
    intersects_with a a = true ∧
    intersects_with a b = intersects_with b a ∧
    (disjoint_with a b = true ↔ ¬ intersects_with a b = true) ∧
    (intersects_with a b = true →
      (overlaps_with a b = true ↔ ¬ touches_with a b = true)) ∧
    (¬ intersects_with a b = true →
      overlaps_with a b = false ∧ touches_with a b = false) := by
  obtain ⟨hax, hay⟩ := ha
  obtain ⟨hbx, hby⟩ := hb
  have key : touches_with a b = true → intersects_with a b = true := by
    simp only [touches_with, intersects_with, Bool.or_eq_true,
      Bool.and_eq_true, decide_eq_true_eq, beq_iff_eq]
    omega
  refine ⟨?_, ?_, ?_, ?_, ?_⟩
  · simp only [intersects_with, Bool.and_eq_true, decide_eq_true_eq]
    omega
  · rw [Bool.eq_iff_iff]
    simp only [intersects_with, Bool.and_eq_true, decide_eq_true_eq]
    omega
  · simp only [disjoint_with, intersects_with, Bool.or_eq_true,
      Bool.and_eq_true, decide_eq_true_eq]
    omega
  · intro hi
    cases ht : touches_with a b <;> simp [overlaps_with, hi, ht]
  · intro hi
    have hi' : intersects_with a b = false := by
      cases h : intersects_with a b
      · rfl
      · exact absurd h hi
    have ht : touches_with a b = false := by
      cases h : touches_with a b
      · rfl
      · exact absurd (key h) hi
    exact ⟨by simp [overlaps_with, hi'], ht⟩

/-- C4: the facade returns an empty result when every operand is empty;
when some but not all operands are empty it returns operand 0 for
Difference, empty for Intersection and CompleteIntersection, and for
Union and SymmetricDifference it continues with the empty operands
dropped, returning the single remaining operand directly when only one is
left — in each returning case via `.shortcut`, i.e. without invoking the
sweep. -/
theorem facade_empty_operand_cases (op : OpKind)
    (operands : List Multipolygon) (accurate : Bool) :
    (operands.all (·.isEmpty) = true →
      compute op operands accurate = .shortcut (empty_result op)) ∧
    (operands.all (·.isEmpty) = false → operands.any (·.isEmpty) = true →
      (op = .difference →
        compute op operands accurate =
          .shortcut (.poly (operands.headD []))) ∧
      (op = .intersection →
        compute op operands accurate = .shortcut (.poly [])) ∧
      (op = .completeIntersection →
        compute op operands accurate = .shortcut (.mix ([], [], []))) ∧
      ((op = .union ∨ op = .symmetricDifference) →
        compute op operands accurate =
          compute_tail op (operands.filter (fun mp => !mp.isEmpty))
            accurate ∧
        ((operands.filter (fun mp => !mp.isEmpty)).length = 1 →
          compute op operands accurate =
            .shortcut
              (.poly ((operands.filter (fun mp => !mp.isEmpty)).headD
                []))))) := by
  constructor
  · intro h
    simp [compute, h]
  · intro h1 h2
    refine ⟨?_, ?_, ?_, ?_⟩
    · rintro rfl
      simp [compute, h1, h2]
    · rintro rfl
      simp [compute, h1, h2]
    · rintro rfl
      simp [compute, h1, h2]
    · rintro (rfl | rfl) <;>
      · refine ⟨?_, fun hlen => ?_⟩
        · simp only [compute]
          rw [if_neg (by simp [h1]), if_pos h2]
        · simp only [compute]
          rw [if_neg (by simp [h1]), if_pos h2]
          simp only [compute_tail]
          rw [if_pos hlen]

/-- Closed witness for C4: a nonempty first operand minus an empty second
operand is returned unchanged without sweeping. -/
theorem facade_empty_operand_cases_witness :
    compute .difference [[(([(0, 0), (1, 0), (1, 1), (0, 1)], []) :
        Polygon)], []] false =
      .shortcut (.poly [(([(0, 0), (1, 0), (1, 1), (0, 1)], []) :
        Polygon)]) :=
  ((facade_empty_operand_cases .difference
      [[(([(0, 0), (1, 0), (1, 1), (0, 1)], []) : Polygon)], []]
      false).2 (by decide) (by decide)).1 rfl

/-- C5 counterexample: a single non-empty operand vacuously has pairwise
disjoint bounding boxes, yet `compute` for Intersection returns that
operand (single-operand shortcut, operation.py line 313) instead of the
empty result the claim requires. -/
theorem facade_disjoint_counterexample :
    (let operands : List Multipolygon :=
      [[(([(0, 0), (1, 0), (1, 1), (0, 1)], []) : Polygon)]]
    operands.all (fun mp => !mp.isEmpty) = true ∧
      pairwise_disjoint_boxes
        (operands.map multipolygon_to_bounding_box) = true ∧
      compute .intersection operands false =
        .shortcut (.poly [(([(0, 0), (1, 0), (1, 1), (0, 1)], []) :
          Polygon)]) ∧
      compute .intersection operands false ≠ .shortcut (.poly [])) := by
  refine ⟨by decide, by decide, rfl, ?_⟩
  intro h
  rw [show compute .intersection
      [[(([(0, 0), (1, 0), (1, 1), (0, 1)], []) : Polygon)]] false =
      .shortcut (.poly [(([(0, 0), (1, 0), (1, 1), (0, 1)], []) :
        Polygon)]) from rfl] at h
  simp at h

/-- `point_le` is transitive. -/
theorem point_le_trans (p q r : Point) (hpq : point_le p q = true)
    (hqr : point_le q r = true) : point_le p r = true := by
  simp only [point_le, Bool.or_eq_true, Bool.and_eq_true,
    decide_eq_true_eq, beq_iff_eq] at *
  omega

/-- `point_le` is total. -/
theorem point_le_total (p q : Point) :
    (point_le p q || point_le q p) = true := by
  simp only [point_le, Bool.or_eq_true, Bool.and_eq_true,
    decide_eq_true_eq, beq_iff_eq]
  omega

instance : IsTrans Polygon polygon_key_le :=
  ⟨fun a b c hab hbc => point_le_trans _ _ _ hab hbc⟩

instance : IsTotal Polygon polygon_key_le :=
  ⟨fun a b => by
    have h := point_le_total (to_first_boundary_vertex a)
      (to_first_boundary_vertex b)
    rcases Bool.or_eq_true_iff.mp h with h' | h'
    · exact Or.inl h'
    · exact Or.inr h'⟩

/-- C5 amended: for at least two non-empty operands with pairwise disjoint
bounding boxes, the facade returns without sweeping: operand 0 for
Difference, the flattened polygons stably sorted by first boundary vertex
for Union and SymmetricDifference (a permutation of the concatenation,
pairwise ordered by the key), and an empty result for Intersection and
CompleteIntersection. -/
theorem facade_disjoint_operands (op : OpKind)
    (operands : List Multipolygon) (accurate : Bool)
    (h2 : 2 ≤ operands.length)
    (hne : operands.all (fun mp => !mp.isEmpty) = true)
    (hd : pairwise_disjoint_boxes
      (operands.map multipolygon_to_bounding_box) = true) :
    compute op operands accurate =
      .shortcut (match op with
        | .difference => .poly (operands.headD [])
        | .union => .poly (sorted_polygons operands.flatten)
        | .symmetricDifference => .poly (sorted_polygons operands.flatten)
        | .intersection => .poly []
        | .completeIntersection => .mix ([], [], [])) ∧
    (sorted_polygons operands.flatten).Perm operands.flatten ∧
    List.Sorted polygon_key_le (sorted_polygons operands.flatten) := by
  have hall : operands.all (·.isEmpty) = false := by
    match operands, h2 with
    | mp :: rest, _ =>
      have hmp := (List.all_eq_true.mp hne) mp (by simp)
      simp only [List.all_cons, Bool.and_eq_false_iff]
      left
      simp only [Bool.not_eq_eq_eq_not, Bool.not_true] at hmp
      exact hmp
  have hany : operands.any (·.isEmpty) = false := by
    rw [List.any_eq_false]
    intro mp hmp
    have := (List.all_eq_true.mp hne) mp hmp
    simp only [Bool.not_eq_eq_eq_not, Bool.not_true] at this
    simp [this]
  have hlen : ¬ operands.length = 1 := by omega
  refine ⟨?_, List.perm_insertionSort _ _, List.sorted_insertionSort _ _⟩
  simp only [compute]
  rw [if_neg (by simp [hall]), if_neg (by simp [hany])]
  simp only [compute_tail]
  rw [if_neg hlen, if_pos hd]

/-- Closed witness for C5 (amended) at two disjoint unit squares. -/
theorem facade_disjoint_operands_witness :
    compute .union
      [[(([(2, 0), (3, 0), (3, 1), (2, 1)], []) : Polygon)],
        [(([(0, 0), (1, 0), (1, 1), (0, 1)], []) : Polygon)]] false =
      .shortcut (.poly
        [(([(0, 0), (1, 0), (1, 1), (0, 1)], []) : Polygon),
          (([(2, 0), (3, 0), (3, 1), (2, 1)], []) : Polygon)]) := by
  have h := (facade_disjoint_operands .union
    [[(([(2, 0), (3, 0), (3, 1), (2, 1)], []) : Polygon)],
      [(([(0, 0), (1, 0), (1, 1), (0, 1)], []) : Polygon)]] false
    (by decide) (by decide) (by decide)).1
  rw [h]
  exact rfl

/-- Closed witness for C6 at concrete boxes. -/
theorem bounding_box_predicate_algebra_witness :
    intersects_with ⟨0, 2, 0, 2⟩ ⟨0, 2, 0, 2⟩ = true ∧
    intersects_with ⟨0, 2, 0, 2⟩ ⟨2, 4, 3, 5⟩
      = intersects_with ⟨2, 4, 3, 5⟩ ⟨0, 2, 0, 2⟩ := by
  refine ⟨(bounding_box_predicate_algebra ⟨0, 2, 0, 2⟩ ⟨0, 2, 0, 2⟩
    (by decide) (by decide)).1, ?_⟩
  exact (bounding_box_predicate_algebra ⟨0, 2, 0, 2⟩ ⟨2, 4, 3, 5⟩
    (by decide) (by decide)).2.1

end Clipping
